import Mathlib

/-!
Verification of the ISO-archive manifest server (`src/main.py`, `src/utils.py`,
`src/os_types.py`) against its natural-language specification.

The Python source is shallowly embedded: every `def` below named after a Python
function is a direct transcription of that function's body, with Python
truthiness, string and list semantics made explicit.  Definitions whose doc
comment starts with `Modelled from the spec` follow the specification's words
instead and exist only to be compared with the code-derived definitions.
-/

namespace ISOArchive

/-! ## Python string and list semantics -/

/-- Python compares strings by Unicode code point; `charLt a b` is `a < b`
on single characters. -/
def charLt (a b : Char) : Bool := a.toNat < b.toNat

/-- Lexicographic (code-point) `≤` on character lists: the order Python's
`str.__lt__`/`sorted` uses on strings. -/
def listLexLe : List Char → List Char → Bool
  | [], _ => true
  | _ :: _, [] => false
  | a :: as, b :: bs => if a = b then listLexLe as bs else charLt a b

/-- Python string `a <= b` (code-point lexicographic). -/
def pyStrLe (a b : String) : Bool := listLexLe a.data b.data

/-- Python `str.lower()` (character-wise, as used on the ASCII metadata here). -/
def pyLower (s : String) : String := String.mk (s.data.map Char.toLower)

/-- Auxiliary for substring test: does `hay` start with `needle`? -/
def lstartsWith : List Char → List Char → Bool
  | _, [] => true
  | [], _ :: _ => false
  | h :: hs, n :: ns => h = n && lstartsWith hs ns

/-- Auxiliary for substring test: does `needle` occur inside `hay`? -/
def lcontainsSub : List Char → List Char → Bool
  | hay, needle =>
    if lstartsWith hay needle then true
    else match hay with
      | [] => false
      | _ :: hs => lcontainsSub hs needle

/-- Python `needle in hay` on strings (substring test; the empty string is a
substring of everything). -/
def pyInStr (needle hay : String) : Bool := lcontainsSub hay.data needle.data

/-- Python `s.split(",")`: split on every comma, keeping empty pieces, and
always returning at least one piece. -/
def pySplitComma : List Char → List String
  | [] => [""]
  | c :: rest =>
    match pySplitComma rest with
    | [] => [""]
    | t :: ts =>
      if c = ',' then "" :: t :: ts
      else String.mk (c :: t.data) :: ts

/-- `os_types.DisketteSize`: the two-member disk-size vocabulary. -/
inductive DisketteSize where
  | threeAndAHalf
  | fiveAndAQuarter
deriving DecidableEq, Repr

/-- The `str` value of a `DisketteSize` member. -/
def DisketteSize.value : DisketteSize → String
  | .threeAndAHalf => "3.5"
  | .fiveAndAQuarter => "5.25"

/-- `DisketteSize(s)`: Python enum lookup by value; an unknown value raises
`ValueError`, modelled as `none`. -/
def DisketteSize.ofString? (s : String) : Option DisketteSize :=
  if s = "3.5" then some .threeAndAHalf
  else if s = "5.25" then some .fiveAndAQuarter
  else none

/-- `os_types.FloppySize`: the four-member floppy-capacity vocabulary. -/
inductive FloppySize where
  | threeAndAHalfHD
  | threeAndAHalfDD
  | fiveAndAQuarterHD
  | fiveAndAQuarterDD
deriving DecidableEq, Repr

/-- The `str` value of a `FloppySize` member. -/
def FloppySize.value : FloppySize → String
  | .threeAndAHalfHD => "1.44MB"
  | .threeAndAHalfDD => "720KB"
  | .fiveAndAQuarterHD => "1.2MB"
  | .fiveAndAQuarterDD => "360KB"

/-- `FloppySize(s)`: enum lookup by value, `ValueError` modelled as `none`. -/
def FloppySize.ofString? (s : String) : Option FloppySize :=
  if s = "1.44MB" then some .threeAndAHalfHD
  else if s = "720KB" then some .threeAndAHalfDD
  else if s = "1.2MB" then some .fiveAndAQuarterHD
  else if s = "360KB" then some .fiveAndAQuarterDD
  else none

/-- `os_types.Arch`: the fixed architecture vocabulary. -/
inductive Arch where
  | alpha | arm64 | arm64e | arm | armv7 | mips | mips64 | x86 | amd64
  | ppc | ppc64 | ppc64le | m68k | sparc | ia64 | hppa | s390 | s390x
  | riscv | riscv64 | loongarch | loongarch64
deriving DecidableEq, Repr

/-- The `str` value of an `Arch` member. -/
def Arch.value : Arch → String
  | .alpha => "alpha" | .arm64 => "arm64" | .arm64e => "arm64e" | .arm => "arm"
  | .armv7 => "armv7" | .mips => "mips" | .mips64 => "mips64" | .x86 => "x86"
  | .amd64 => "amd64" | .ppc => "ppc" | .ppc64 => "ppc64" | .ppc64le => "ppc64le"
  | .m68k => "m68k" | .sparc => "sparc" | .ia64 => "ia64" | .hppa => "hppa"
  | .s390 => "s390" | .s390x => "s390x" | .riscv => "riscv" | .riscv64 => "riscv64"
  | .loongarch => "loongarch" | .loongarch64 => "loongarch64"

/-- `Arch(s)`: enum lookup by value, `ValueError` modelled as `none`. -/
def Arch.ofString? (s : String) : Option Arch :=
  if s = "alpha" then some .alpha
  else if s = "arm64" then some .arm64
  else if s = "arm64e" then some .arm64e
  else if s = "arm" then some .arm
  else if s = "armv7" then some .armv7
  else if s = "mips" then some .mips
  else if s = "mips64" then some .mips64
  else if s = "x86" then some .x86
  else if s = "amd64" then some .amd64
  else if s = "ppc" then some .ppc
  else if s = "ppc64" then some .ppc64
  else if s = "ppc64le" then some .ppc64le
  else if s = "m68k" then some .m68k
  else if s = "sparc" then some .sparc
  else if s = "ia64" then some .ia64
  else if s = "hppa" then some .hppa
  else if s = "s390" then some .s390
  else if s = "s390x" then some .s390x
  else if s = "riscv" then some .riscv
  else if s = "riscv64" then some .riscv64
  else if s = "loongarch" then some .loongarch
  else if s = "loongarch64" then some .loongarch64
  else none

/-- `os_types.OS`: one parsed manifest record (a `TypedDict`; Python `==`
compares all ten fields). -/
structure OS where
  variant : String
  name : String
  version : String
  disketteSize : Option DisketteSize
  floppySize : Option FloppySize
  arch : List Arch
  tags : List String
  extension : String
  size : Nat
  url : String
deriving DecidableEq, Repr

/-- The optional per-facet allow-lists and search string of a query
(`None` when a query parameter is absent). -/
structure Criteria where
  variants : Option (List String) := none
  names : Option (List String) := none
  versions : Option (List String) := none
  disketteSizes : Option (List String) := none
  floppySizes : Option (List String) := none
  archs : Option (List String) := none
  tags : Option (List String) := none
  search : Option String := none
deriving DecidableEq, Repr

/-- The captures of a successful `filename_regex` match.  `disk_size` and
`floppy_size` live in one optional group, hence the paired option. -/
structure MatchGroups where
  osName : String
  version : String
  diskFloppy : Option (String × String)
  arch : String
  tags : Option String
  extension : String
deriving DecidableEq, Repr

/-- Candidate lengths for a greedy `[p]+` piece, in backtracking preference
order: the maximal run length first, down to 1; empty when no character
matches. -/
def plusLens (p : Char → Bool) (s : List Char) : List Nat :=
  let k := (s.takeWhile p).length
  (List.range k).map (fun i => k - i)

/-- Candidate total lengths consumed by the greedy `(?:,[^_.]+)*` piece, in
backtracking preference order (one more repetition is preferred over
stopping).  Each repetition consumes at least two characters, so with fuel
`s.length + 1` the fuel never runs out; the base case still yields the
always-valid empty repetition. -/
def starChoicesF : Nat → List Char → List Nat
  | 0, _ => [0]
  | fuel + 1, s =>
    (match s with
     | ',' :: rest =>
        (plusLens (fun c => c ≠ '_' && c ≠ '.') rest).flatMap
          (fun n => (starChoicesF fuel (rest.drop n)).map (fun m => 1 + n + m))
     | _ => []) ++ [0]

/-- `(?:,[^_.]+)*` candidate consumptions in preference order. -/
def starChoices (s : List Char) : List Nat := starChoicesF (s.length + 1) s

/-- Candidate consumptions of `[^_]+(?:,[^_.]+)*` (the `arch` group body). -/
def archLens (s : List Char) : List Nat :=
  (plusLens (fun c => c ≠ '_') s).flatMap
    (fun n => (starChoices (s.drop n)).map (fun m => n + m))

/-- Candidate consumptions of `[^_.]+(?:,[^_.]+)*` (the `tags` group body). -/
def tagLens (s : List Char) : List Nat :=
  (plusLens (fun c => c ≠ '_' && c ≠ '.') s).flatMap
    (fun n => (starChoices (s.drop n)).map (fun m => n + m))

/-- `\.(?P<extension>.+)`: a literal dot, then one or more characters other
than newline, greedily to the end of the line; nothing follows, so the
greedy maximum is the match. -/
def parseDotExt (s : List Char) : Option String :=
  match s with
  | '.' :: rest =>
    let run := rest.takeWhile (fun c => c ≠ '\n')
    if run.isEmpty then none else some (String.mk run)
  | _ => none

/-- `(?:_(?P<tags>…))?\.(?P<extension>.+)`: prefer matching the optional tags
group (each of its candidate lengths in turn), then fall back to skipping it. -/
def parseTagsExt (s : List Char) : Option (Option String × String) :=
  (match s with
   | '_' :: s1 =>
      (tagLens s1).findSome? (fun t =>
        (parseDotExt (s1.drop t)).map (fun e => (some (String.mk (s1.take t)), e)))
   | _ => none)
  <|> (parseDotExt s).map (fun e => ((none : Option String), e))

/-- `_(?P<arch>…)` followed by the tags/extension tail. -/
def parseArchOn (s : List Char) : Option (String × Option String × String) :=
  match s with
  | '_' :: s1 =>
    (archLens s1).findSome? (fun a =>
      (parseTagsExt (s1.drop a)).map (fun te => (String.mk (s1.take a), te.1, te.2)))
  | _ => none

/-- `(?:_(?P<disk_size>[^_]+)_(?P<floppy_size>[^_]+))?` followed by the arch
tail: prefer matching the optional size pair (each candidate split in turn),
then fall back to skipping it. -/
def parseAfterVersion (s : List Char) :
    Option (Option (String × String) × String × Option String × String) :=
  (match s with
   | '_' :: s1 =>
     (plusLens (fun c => c ≠ '_') s1).findSome? (fun d =>
       match s1.drop d with
       | '_' :: s2 =>
         (plusLens (fun c => c ≠ '_') s2).findSome? (fun f =>
           (parseArchOn (s2.drop f)).map (fun r =>
             (some (String.mk (s1.take d), String.mk (s2.take f)), r)))
       | _ => none)
   | _ => none)
  <|> (parseArchOn s).map (fun r => ((none : Option (String × String)), r))

/-- `filename_regex.match(name)`: the full anchored match with captures, or
`None`. -/
def filenameRegexMatch (name : String) : Option MatchGroups :=
  let s := name.data
  (plusLens (fun c => c ≠ '_') s).findSome? (fun n1 =>
    match s.drop n1 with
    | '_' :: s1 =>
      (plusLens (fun c => c ≠ '_') s1).findSome? (fun n2 =>
        (parseAfterVersion (s1.drop n2)).map (fun r =>
          { osName := String.mk (s.take n1)
            version := String.mk (s1.take n2)
            diskFloppy := r.1
            arch := r.2.1
            tags := r.2.2.1
            extension := r.2.2.2 }))
    | _ => none)

/-! ## The parser (`utils.get_os_manifest_from_path`) -/

/-- The uncaught exceptions of the embedded code: `get_os_manifest_from_path`
can raise `IndexError` (short path) and `OSError` (failed `stat`) — only
`ValueError` is caught by its `except` clause — and `sorted` can raise
`TypeError` when it compares incomparable key values. -/
inductive PyErr where
  | indexError
  | osError
  | typeError
deriving DecidableEq, Repr

/-- The configuration read from the environment: `get_archive_path().parts`
and `getenv("DOWNLOAD_URL", "")`. -/
structure Env where
  archiveParts : List String
  downloadUrl : String

/-- The filesystem at observation time: the byte size of each path
(`.parts` representation), or `none` when `stat` raises `OSError`. -/
abbrev Stat := List String → Option Nat

/-- `str(path.relative_to(archive))`: the path's components with the archive
prefix removed, joined by `/`; a non-prefix raises `ValueError` (`none`). -/
def relativeToStr? (archive path : List String) : Option String :=
  if archive.isPrefixOf path then
    some (String.intercalate "/" (path.drop archive.length))
  else none

/-- The `disketteSize=`/`floppySize=` keyword computations: a missing group
gives `None` for both; a captured token outside the vocabulary raises
`ValueError` (`none` here, caught by the function's `except`). -/
def sizesFromGroups? :
    Option (String × String) → Option (Option DisketteSize × Option FloppySize)
  | none => some (none, none)
  | some (d, f) =>
    match DisketteSize.ofString? d, FloppySize.ofString? f with
    | some dd, some ff => some (some dd, some ff)
    | _, _ => none

/-- `utils.get_os_manifest_from_path(path, new_path=None)`.  A path is its
`.parts` list.  `path.parts[3]` raises `IndexError` (uncaught) on a path
with fewer than four components; `stat` on a missing file raises `OSError`
(uncaught); regex mismatch returns `None`; enum `ValueError`s and a
`relative_to` `ValueError` are caught and give `None`. -/
def get_os_manifest_from_path (env : Env) (stat : Stat) (path : List String)
    (newPath : Option (List String)) : Except PyErr (Option OS) :=
  match path[3]? with
  | none => .error .indexError
  | some variant =>
    match filenameRegexMatch (path.getLastD "") with
    | none => .ok none
    | some g =>
      match sizesFromGroups? g.diskFloppy with
      | none => .ok none
      | some sizes =>
        match (pySplitComma g.arch.data).mapM Arch.ofString? with
        | none => .ok none
        | some archList =>
          match (match newPath with | none => stat path | some np => stat np) with
          | none => .error .osError
          | some sz =>
            match relativeToStr? env.archiveParts path with
            | none => .ok none
            | some rel =>
              .ok (some
                { variant := variant
                  name := g.osName
                  version := g.version
                  disketteSize := sizes.1
                  floppySize := sizes.2
                  arch := archList
                  tags := match g.tags with | none => [] | some t => pySplitComma t.data
                  extension := g.extension
                  size := sz
                  url := env.downloadUrl ++ "/" ++ rel })

/-! ## The store, watcher handlers and scanner (`utils.py`) -/

/-- `FileHandler.on_created`: parse the created path and append on success. -/
def FileHandler.on_created (env : Env) (stat : Stat) (path : List String)
    (store : List OS) : Except PyErr (List OS) :=
  match get_os_manifest_from_path env stat path none with
  | .error e => .error e
  | .ok none => .ok store
  | .ok (some r) => .ok (store ++ [r])

/-- The deletion loop `for i, os in enumerate(CACHED_MANIFEST): if os ==
result: del CACHED_MANIFEST[i]`, which mutates the list while indexing into
it: after a deletion at `i` the next probe is index `i + 1` of the shifted
list, so the element sliding into slot `i` is skipped.  The index advances
every step and the loop stops once it reaches the live length, so fuel
`l.length + 1` never runs out. -/
def pyDeleteLoopF : Nat → List OS → Nat → OS → List OS
  | 0, cur, _, _ => cur
  | fuel + 1, cur, i, r =>
    if h : i < cur.length then
      if cur[i] = r then pyDeleteLoopF fuel (cur.eraseIdx i) (i + 1) r
      else pyDeleteLoopF fuel cur (i + 1) r
    else cur

/-- The deletion loop on a fresh index. -/
def pyDeleteLoop (l : List OS) (r : OS) : List OS := pyDeleteLoopF (l.length + 1) l 0 r

/-- `FileHandler.on_deleted`: re-parse the deleted path (including a `stat`
of it) and delete store entries equal (as whole records) to the result. -/
def FileHandler.on_deleted (env : Env) (stat : Stat) (path : List String)
    (store : List OS) : Except PyErr (List OS) :=
  match get_os_manifest_from_path env stat path none with
  | .error e => .error e
  | .ok none => .ok store
  | .ok (some r) => .ok (pyDeleteLoop store r)

/-- `if result: CACHED_MANIFEST.append(result)`: append a parse result when
it is truthy. -/
def insertIfSome (store : List OS) : Option OS → List OS
  | none => store
  | some r => store ++ [r]

/-- `FileHandler.on_moved` (non-directory case): insert the destination's
record, then delete entries equal to the source's record re-parsed with the
destination's size. -/
def FileHandler.on_moved (env : Env) (stat : Stat) (srcPath destPath : List String)
    (store : List OS) : Except PyErr (List OS) :=
  match get_os_manifest_from_path env stat destPath none with
  | .error e => .error e
  | .ok destRes =>
    match get_os_manifest_from_path env stat srcPath (some destPath) with
    | .error e => .error e
    | .ok none => .ok (insertIfSome store destRes)
    | .ok (some r) => .ok (pyDeleteLoop (insertIfSome store destRes) r)

/-- The module-level mutable state of `utils.py`: `CACHED_MANIFEST`,
`IS_INITIALIZED`, and whether `OBSERVER.schedule`/`start` ran. -/
structure ScanState where
  initialized : Bool
  store : List OS
  observerScheduled : Bool
deriving DecidableEq, Repr

/-- What `generate_os_manifests` reads from the outside world: the
configuration, the filesystem, and the regular files produced by
`archive_path.rglob("*")` in walk order. -/
structure ScanEnv where
  env : Env
  stat : Stat
  files : List (List String)

/-- The scan's `for path in archive_path.rglob("*")` loop body over the
regular files: append each successful parse; an uncaught exception aborts
the loop (leaving the store partially populated). -/
def walkLoop (e : ScanEnv) : List (List String) → ScanState → ScanState × Option PyErr
  | [], s => (s, none)
  | p :: rest, s =>
    match get_os_manifest_from_path e.env e.stat p none with
    | .error err => (s, some err)
    | .ok none => walkLoop e rest s
    | .ok (some r) => walkLoop e rest { s with store := s.store ++ [r] }

/-- Everything `generate_os_manifests` does after the initialization check:
the walk, then `OBSERVER.schedule`/`OBSERVER.start` (skipped if the walk
raised). -/
def scanPhase (e : ScanEnv) (s : ScanState) : ScanState × Option PyErr :=
  match walkLoop e e.files s with
  | (s1, none) => ({ s1 with observerScheduled := true }, none)
  | (s1, some err) => (s1, some err)

/-- `utils.generate_os_manifests`: if `IS_INITIALIZED` do nothing, else set
the flag first, then walk and attach the observer. -/
def generate_os_manifests (e : ScanEnv) (s : ScanState) : ScanState × Option PyErr :=
  if s.initialized then (s, none)
  else scanPhase e { s with initialized := true }

/-! ## The filter engine (`utils.get_filtered_os_manifests`) -/

/-- `not allow or v in allow` for a `str` facet: `None` and the empty list
are falsy, so both impose no constraint; otherwise membership. -/
def pyCondStr (allow : Option (List String)) (v : String) : Bool :=
  match allow with
  | none => true
  | some xs => xs.isEmpty || xs.contains v

/-- `not allow or (os["disketteSize"] and os["disketteSize"].value in
allow)`: a record with no size fails an active constraint.  (The variant
`os["disketteSize"] in allow` in `main.get_os_params` is the same Boolean:
`None` is never in a list of `str`, and a `str`-enum member equals the
`str` of its value.) -/
def pyCondDiskette (allow : Option (List String)) (d : Option DisketteSize) : Bool :=
  match allow with
  | none => true
  | some xs => xs.isEmpty || (match d with | none => false | some dd => xs.contains dd.value)

/-- The floppy-size analogue of `pyCondDiskette`. -/
def pyCondFloppy (allow : Option (List String)) (f : Option FloppySize) : Bool :=
  match allow with
  | none => true
  | some xs => xs.isEmpty || (match f with | none => false | some ff => xs.contains ff.value)

/-- `not archs or any(arch.value in archs for arch in os["arch"])`. -/
def pyCondArchOverlap (allow : Option (List String)) (archList : List Arch) : Bool :=
  match allow with
  | none => true
  | some xs => xs.isEmpty || archList.any (fun a => xs.contains a.value)

/-- `not tags or any(tag in os["tags"] for tag in tags)`. -/
def pyCondTags (allow : Option (List String)) (recTags : List String) : Bool :=
  match allow with
  | none => true
  | some xs => xs.isEmpty || xs.any (fun t => recTags.contains t)

/-- The search disjunction of `get_filtered_os_manifests`: the lowercased
search string as a substring of any of the lowercased fields. -/
def pySearchHit (s : String) (o : OS) : Bool :=
  pyInStr (pyLower s) (pyLower o.variant)
  || pyInStr (pyLower s) (pyLower o.name)
  || pyInStr (pyLower s) (pyLower o.version)
  || (match o.disketteSize with | none => false | some d => pyInStr (pyLower s) (pyLower d.value))
  || (match o.floppySize with | none => false | some f => pyInStr (pyLower s) (pyLower f.value))
  || o.arch.any (fun a => pyInStr (pyLower s) (pyLower a.value))
  || o.tags.any (fun t => pyInStr (pyLower s) (pyLower t))

/-- `not search or (…)`: `None` and `""` are falsy, imposing no constraint. -/
def pyCondSearch (search : Option String) (o : OS) : Bool :=
  match search with
  | none => true
  | some s => s.isEmpty || pySearchHit s o

/-- The full record predicate of `get_filtered_os_manifests`. -/
def manifestPasses (c : Criteria) (o : OS) : Bool :=
  pyCondStr c.variants o.variant
  && pyCondStr c.names o.name
  && pyCondStr c.versions o.version
  && pyCondDiskette c.disketteSizes o.disketteSize
  && pyCondFloppy c.floppySizes o.floppySize
  && pyCondArchOverlap c.archs o.arch
  && pyCondTags c.tags o.tags
  && pyCondSearch c.search o

/-- `utils.get_filtered_os_manifests` over a given store contents. -/
def get_filtered_os_manifests (ms : List OS) (c : Criteria) : List OS :=
  ms.filter (manifestPasses c)

/-! ## Faceted parameter discovery (`main.get_os_params`) -/

/-- Strict lexicographic (code-point) `<` on character lists: Python's
`str.__lt__`. -/
def listLexLt : List Char → List Char → Bool
  | [], [] => false
  | [], _ :: _ => true
  | _ :: _, [] => false
  | a :: as, b :: bs => if a = b then listLexLt as bs else charLt a b

/-- Python string `a < b`. -/
def pyStrLt (a b : String) : Bool := listLexLt a.data b.data

/-- Python list `<=` on string lists: elementwise `==`, first difference by
`<`, shorter prefix first. -/
def strListLe : List String → List String → Bool
  | [], _ => true
  | _ :: _, [] => false
  | a :: as, b :: bs => if a = b then strListLe as bs else pyStrLt a b

/-- The Python values `os.get(sort_key, "")` can return for a record: one
constructor per field type of the `OS` `TypedDict` (plus the `""` default,
a `str`). -/
inductive PyVal where
  | str (s : String)
  | int (n : Nat)
  | archList (l : List Arch)
  | strList (l : List String)
  | optDiskette (d : Option DisketteSize)
  | optFloppy (f : Option FloppySize)
deriving DecidableEq, Repr

/-- `os.get(sort_key, "")`: the actual field value for each of the ten
record keys, the `""` default otherwise. -/
def osGet (o : OS) (key : String) : PyVal :=
  if key = "variant" then .str o.variant
  else if key = "name" then .str o.name
  else if key = "version" then .str o.version
  else if key = "disketteSize" then .optDiskette o.disketteSize
  else if key = "floppySize" then .optFloppy o.floppySize
  else if key = "arch" then .archList o.arch
  else if key = "tags" then .strList o.tags
  else if key = "extension" then .str o.extension
  else if key = "size" then .int o.size
  else if key = "url" then .str o.url
  else .str ""

/-- The non-strict key order underlying `sorted`'s comparisons on these
values, `none` where Python's `<` raises `TypeError`: strings compare by
code points, ints numerically, lists elementwise (a `str` enum member
compares as its value string), enum members by their value strings, and
`None` compares with nothing — not even with itself.  A fixed `sort_key`
yields one constructor for every record, so the cross-constructor cases are
unreachable in this program; they are mapped to `TypeError`, which is what
Python does for them anyway. -/
def pyValLe? : PyVal → PyVal → Option Bool
  | .str a, .str b => some (pyStrLe a b)
  | .int a, .int b => some (decide (a ≤ b))
  | .archList a, .archList b => some (strListLe (a.map Arch.value) (b.map Arch.value))
  | .strList a, .strList b => some (strListLe a b)
  | .optDiskette (some a), .optDiskette (some b) => some (pyStrLe a.value b.value)
  | .optFloppy (some a), .optFloppy (some b) => some (pyStrLe a.value b.value)
  | _, _ => none

/-- `pyValLe?` with an arbitrary default on incomparable pairs; only ever
relied upon where comparability has been established. -/
def pyValLeD (x y : PyVal) : Bool := (pyValLe? x y).getD true

/-- Ascending key order for `sorted(key=…)`. -/
def keyRel (k : String) : OS → OS → Prop :=
  fun a b => pyValLeD (osGet a k) (osGet b k) = true

/-- Descending key order for `sorted(key=…, reverse=True)`; Python's
`reverse=True` keeps equal-key elements in their original order, i.e. it is
the stable sort under this relation. -/
def keyRelDesc (k : String) : OS → OS → Prop :=
  fun a b => pyValLeD (osGet b k) (osGet a k) = true

instance (k : String) : DecidableRel (keyRel k) := fun a b =>
  instDecidableEqBool (pyValLeD (osGet a k) (osGet b k)) true

instance (k : String) : DecidableRel (keyRelDesc k) := fun a b =>
  instDecidableEqBool (pyValLeD (osGet b k) (osGet a k)) true

/-- Comparability of each adjacent key pair.  CPython's `sorted` (Timsort)
raises exactly when a comparison it performs raises; its run detection
compares every adjacent key pair (of the reversed list under
`reverse=True`, which has the same adjacent pair set), and merge steps only
compare keys that run detection already passed.  In this program's key
universe a fixed key gives every record the same `PyVal` constructor and
the only incomparable values are `None`s, each of which is adjacent to
another element whenever the list has two or more — so `sorted` completes
iff every adjacent key pair is comparable, and this predicate is that
condition. -/
def adjacentComparable : List PyVal → Bool
  | [] => true
  | [_] => true
  | a :: b :: rest => (pyValLe? a b).isSome && adjacentComparable (b :: rest)

/-- `sorted(l, key=lambda os: os.get(k, ""), reverse=desc)`: `TypeError`
when some performed comparison is undefined (see `adjacentComparable`),
otherwise the unique stable sort under the key order — Python's Timsort and
the stable `List.insertionSort` are extensionally the same function there. -/
def pySortedByKey (desc : Bool) (k : String) (l : List OS) : Except PyErr (List OS) :=
  if adjacentComparable (l.map (fun o => osGet o k)) then
    .ok (if desc then List.insertionSort (keyRelDesc k) l
         else List.insertionSort (keyRel k) l)
  else .error .typeError

/-- Python `a or b` on optional strings: `None` and `""` are falsy. -/
def pyOrStr : Option String → Option String → Option String
  | some a, b => if a.isEmpty then b else some a
  | none, b => b

/-- `bool(x)` on an optional string. -/
def pyTruthyOptStr : Option String → Bool
  | some s => !s.isEmpty
  | none => false

/-- The filter and sort part of `main.get_os`: `sort_key = ascBy or descBy`;
when a sort key is present, `sorted` by `os.get(sort_key, "")` with
`reverse=bool(descBy)`, which can raise `TypeError`. -/
def sortedFiltered (ms : List OS) (c : Criteria) (ascBy descBy : Option String) :
    Except PyErr (List OS) :=
  match pyOrStr ascBy descBy with
  | none => .ok (get_filtered_os_manifests ms c)
  | some k => pySortedByKey (pyTruthyOptStr descBy) k (get_filtered_os_manifests ms c)

/-- The record keys whose `os.get` value is a `str` (including the `""`
default for unknown keys): the fragment on which `sorted` compares plain
strings. -/
def isStrKey (k : String) : Bool :=
  if k = "disketteSize" then false
  else if k = "floppySize" then false
  else if k = "arch" then false
  else if k = "tags" then false
  else if k = "size" then false
  else true

/-- The string `os.get(sort_key, "")` yields on the `isStrKey` fragment. -/
def strFieldVal (o : OS) (k : String) : String :=
  if k = "variant" then o.variant
  else if k = "name" then o.name
  else if k = "version" then o.version
  else if k = "extension" then o.extension
  else if k = "url" then o.url
  else ""

/-- `main.get_os`: filter, optionally sort (propagating a sort
`TypeError`), then `islice(…, size * page, size * (page + 1))`. -/
def get_os (ms : List OS) (c : Criteria) (ascBy descBy : Option String)
    (size page : Nat) : Except PyErr (List OS) :=
  match sortedFiltered ms c ascBy descBy with
  | .error e => .error e
  | .ok l => .ok ((l.drop (size * page)).take size)

/-! ## Spec-modelled definitions

The following definitions are NOT transcribed from the source: they follow
the specification's words, and exist only to be compared against the
code-derived definitions above. -/

/-- Modelled from the spec (§9): split a string into maximal runs of digit
and non-digit characters, for the natural-order comparator. -/
def naturalRuns : List Char → List (List Char)
  | [] => []
  | c :: rest =>
    match naturalRuns rest with
    | [] => [[c]]
    | r :: rs =>
      match r with
      | [] => [c] :: rs
      | d :: _ => if c.isDigit = d.isDigit then (c :: r) :: rs else [c] :: r :: rs

/-- Numeric value of a digit run. -/
def digitsToNat (r : List Char) : Nat := r.foldl (fun n c => n * 10 + (c.toNat - 48)) 0

/-- Modelled from the spec (§9): compare two runs — numeric runs by numeric
value, other runs by code points. -/
def runCompare (a b : List Char) : Ordering :=
  if a.all Char.isDigit && b.all Char.isDigit then compare (digitsToNat a) (digitsToNat b)
  else if listLexLe a b then (if listLexLe b a then .eq else .lt)
  else .gt

/-- Modelled from the spec: compare run lists position by position. -/
def naturalCompareRuns : List (List Char) → List (List Char) → Ordering
  | [], [] => .eq
  | [], _ :: _ => .lt
  | _ :: _, [] => .gt
  | a :: as, b :: bs =>
    match runCompare a b with
    | .eq => naturalCompareRuns as bs
    | o => o

/-- Modelled from the spec (§4.5, §9): the natural ("human") order on
strings, in which digit runs compare by numeric value, so "9" < "10". -/
def specNaturalCompare (a b : String) : Ordering :=
  naturalCompareRuns (naturalRuns a.data) (naturalRuns b.data)

/-- Natural-order `≤` as a Boolean. -/
def specNaturalLe (a b : String) : Bool :=
  match specNaturalCompare a b with
  | .gt => false
  | _ => true

/-- Modelled from the spec (§4.4 / C3): "every facet with a non-empty
allow-list has at least one overlapping value with the record" — for a
facet whose record values are `vals`, any allow-list that is present and
non-empty must share a member with `vals` (for single-valued facets `vals`
is a singleton, so overlap is membership; for an absent optional value it
is empty, so an active constraint fails). -/
def facetOk (allow : Option (List String)) (vals : List String) : Prop :=
  ∀ xs, allow = some xs → xs ≠ [] → ∃ v, v ∈ xs ∧ v ∈ vals

/-- The record's value list for an optional single-valued facet. -/
def optValList : Option String → List String
  | none => []
  | some s => [s]

/-- Modelled from the spec (§4.4 / C3): the record predicate as the claim
states it — every facet with a non-empty allow-list overlaps the record
(any member in common for the multi-valued facets architecture and tag,
membership for the single-valued facets), and, when a search string is
set, the lowercased search string is a (case-insensitive) substring of at
least one of variant, name, version, the size codes, any architecture code
or any tag. -/
def claimPasses (c : Criteria) (o : OS) : Prop :=
  facetOk c.variants [o.variant] ∧
  facetOk c.names [o.name] ∧
  facetOk c.versions [o.version] ∧
  facetOk c.disketteSizes (optValList (o.disketteSize.map DisketteSize.value)) ∧
  facetOk c.floppySizes (optValList (o.floppySize.map FloppySize.value)) ∧
  facetOk c.archs (o.arch.map Arch.value) ∧
  facetOk c.tags o.tags ∧
  (∀ s, c.search = some s → s ≠ "" →
    pyInStr (pyLower s) (pyLower o.variant) = true ∨
    pyInStr (pyLower s) (pyLower o.name) = true ∨
    pyInStr (pyLower s) (pyLower o.version) = true ∨
    (∃ d, o.disketteSize = some d ∧ pyInStr (pyLower s) (pyLower d.value) = true) ∨
    (∃ f, o.floppySize = some f ∧ pyInStr (pyLower s) (pyLower f.value) = true) ∨
    (∃ a, a ∈ o.arch ∧ pyInStr (pyLower s) (pyLower a.value) = true) ∨
    (∃ t, t ∈ o.tags ∧ pyInStr (pyLower s) (pyLower t) = true))

/-- The record invariant of C7: a non-empty architecture list, and the two
size fields both present or both absent. -/
def recordInv (r : OS) : Prop :=
  r.arch ≠ [] ∧ (r.disketteSize.isSome ↔ r.floppySize.isSome)

/-- A store in which every record satisfies `recordInv`. -/
def storeInv (l : List OS) : Prop := ∀ r, r ∈ l → recordInv r

/-! ## Concrete fixtures used by witnesses and counterexamples -/

/-- A record fixture: variant `A`, name `X`, version `9`. -/
def osAX9 : OS :=
  { variant := "A", name := "X", version := "9", disketteSize := none,
    floppySize := none, arch := [.x86], tags := [], extension := "iso",
    size := 1, url := "u1" }

/-- A record fixture: variant `A`, name `Y`, version `10`. -/
def osAY10 : OS :=
  { variant := "A", name := "Y", version := "10", disketteSize := none,
    floppySize := none, arch := [.amd64], tags := ["t"], extension := "iso",
    size := 2, url := "u2" }

/-- The record `get_os_manifest_from_path` produces for
`/srv/archive/DOS/MS-DOS_6.22_x86.iso` (size 42, base URL `http://dl`). -/
def osMSDOS : OS :=
  { variant := "DOS", name := "MS-DOS", version := "6.22", disketteSize := none,
    floppySize := none, arch := [.x86], tags := [], extension := "iso",
    size := 42, url := "http://dl/DOS/MS-DOS_6.22_x86.iso" }

/-- A configuration fixture: archive root `/srv/archive`, base URL `http://dl`. -/
def envFix : Env := { archiveParts := ["/", "srv", "archive"], downloadUrl := "http://dl" }

/-- A filesystem fixture on which every path stats with size 42. -/
def statAll42 : Stat := fun _ => some 42

/-- A filesystem fixture on which every `stat` raises (every file is gone). -/
def statNone : Stat := fun _ => none

/-- A record fixture with both size fields present (variant `DOS`). -/
def osD35 : OS :=
  { variant := "DOS", name := "Win", version := "3.11",
    disketteSize := some .threeAndAHalf, floppySize := some .threeAndAHalfHD,
    arch := [.x86], tags := [], extension := "img", size := 5, url := "u5" }

/-- The `.parts` of `/srv/archive/DOS/MS-DOS_6.22_x86.iso`. -/
def pathMSDOS : List String := ["/", "srv", "archive", "DOS", "MS-DOS_6.22_x86.iso"]

/-- A scan-environment fixture over the single file above. -/
def scanEnvFix : ScanEnv := { env := envFix, stat := statAll42, files := [pathMSDOS] }

/-! ## Helper lemmas: the code-point string order is a total preorder -/

theorem charLt_or_eq_or (a b : Char) : charLt a b = true ∨ a = b ∨ charLt b a = true := by
  simp only [charLt, decide_eq_true_eq]
  rcases Nat.lt_trichotomy a.toNat b.toNat with h | h | h
  · exact Or.inl h
  · exact Or.inr (Or.inl (Char.eq_of_val_eq (UInt32.ext h)))
  · exact Or.inr (Or.inr h)

theorem charLt_trans {a b c : Char} (h1 : charLt a b = true) (h2 : charLt b c = true) :
    charLt a c = true := by
  simp only [charLt, decide_eq_true_eq] at *
  omega

theorem charLt_irrefl (a : Char) : charLt a a = false := by
  simp [charLt]

theorem listLexLe_refl (a : List Char) : listLexLe a a = true := by
  induction a with
  | nil => rfl
  | cons x xs ih => simp [listLexLe, ih]

theorem listLexLe_total (a b : List Char) : listLexLe a b = true ∨ listLexLe b a = true := by
  induction a generalizing b with
  | nil => left; rfl
  | cons x xs ih =>
    cases b with
    | nil => right; rfl
    | cons y ys =>
      by_cases hxy : x = y
      · subst hxy
        simp only [listLexLe, if_pos rfl]
        exact ih ys
      · rcases charLt_or_eq_or x y with h | h | h
        · left; simp [listLexLe, hxy, h]
        · exact absurd h hxy
        · right; simp [listLexLe, Ne.symm hxy, h]

theorem listLexLe_trans : ∀ {a b c : List Char}, listLexLe a b = true →
    listLexLe b c = true → listLexLe a c = true
  | [], _, _, _, _ => rfl
  | _ :: _, [], _, h, _ => by simp [listLexLe] at h
  | _ :: _, _ :: _, [], _, h => by simp [listLexLe] at h
  | x :: xs, y :: ys, z :: zs, h1, h2 => by
    simp only [listLexLe] at *
    by_cases hxy : x = y <;> by_cases hyz : y = z
    · subst hxy; subst hyz
      simp only [if_pos rfl] at *
      exact listLexLe_trans h1 h2
    · subst hxy
      simp_all
    · subst hyz
      simp_all
    · rw [if_neg hxy] at h1
      rw [if_neg hyz] at h2
      by_cases hxz : x = z
      · subst hxz
        exfalso
        have := charLt_trans h1 h2
        simp [charLt_irrefl] at this
      · rw [if_neg hxz]
        exact charLt_trans h1 h2

theorem pyStrLe_refl (a : String) : pyStrLe a a = true := listLexLe_refl a.data

theorem pyStrLe_total (a b : String) : pyStrLe a b = true ∨ pyStrLe b a = true :=
  listLexLe_total a.data b.data

theorem pyStrLe_trans {a b c : String} (h1 : pyStrLe a b = true) (h2 : pyStrLe b c = true) :
    pyStrLe a c = true := listLexLe_trans h1 h2

/-- On the `isStrKey` fragment, `os.get` yields the field's string. -/
theorem osGet_str_of_isStrKey (o : OS) (k : String) (hsk : isStrKey k = true) :
    osGet o k = .str (strFieldVal o k) := by
  by_cases h1 : k = "variant"
  · subst h1; rfl
  by_cases h2 : k = "name"
  · subst h2; rfl
  by_cases h3 : k = "version"
  · subst h3; rfl
  by_cases h4 : k = "extension"
  · subst h4; rfl
  by_cases h5 : k = "url"
  · subst h5; rfl
  by_cases h6 : k = "disketteSize"
  · subst h6; exact absurd hsk (by decide)
  by_cases h7 : k = "floppySize"
  · subst h7; exact absurd hsk (by decide)
  by_cases h8 : k = "arch"
  · subst h8; exact absurd hsk (by decide)
  by_cases h9 : k = "tags"
  · subst h9; exact absurd hsk (by decide)
  by_cases h10 : k = "size"
  · subst h10; exact absurd hsk (by decide)
  simp [osGet, strFieldVal, h1, h2, h3, h4, h5, h6, h7, h8, h9, h10]

/-- On the `isStrKey` fragment the ascending key order is the lexicographic
order of the field strings. -/
theorem keyRel_str_iff (k : String) (hsk : isStrKey k = true) (a b : OS) :
    keyRel k a b ↔ pyStrLe (strFieldVal a k) (strFieldVal b k) = true := by
  unfold keyRel pyValLeD
  rw [osGet_str_of_isStrKey a k hsk, osGet_str_of_isStrKey b k hsk]
  simp [pyValLe?]

/-- On the `isStrKey` fragment the descending key order is the reversed
lexicographic order of the field strings. -/
theorem keyRelDesc_str_iff (k : String) (hsk : isStrKey k = true) (a b : OS) :
    keyRelDesc k a b ↔ pyStrLe (strFieldVal b k) (strFieldVal a k) = true := by
  unfold keyRelDesc pyValLeD
  rw [osGet_str_of_isStrKey a k hsk, osGet_str_of_isStrKey b k hsk]
  simp [pyValLe?]

/-- A list of plain-string key values has every adjacent pair comparable. -/
theorem adjacentComparable_str :
    ∀ l : List PyVal, (∀ x ∈ l, ∃ s, x = .str s) → adjacentComparable l = true := by
  intro l
  induction l with
  | nil => intro _; rfl
  | cons a rest ih =>
    intro h
    cases rest with
    | nil => rfl
    | cons b t =>
      obtain ⟨sa, hsa⟩ := h a (by simp)
      obtain ⟨sb, hsb⟩ := h b (by simp)
      have hrest : adjacentComparable (b :: t) = true :=
        ih (fun x hx => h x (List.mem_cons_of_mem a hx))
      subst hsa
      subst hsb
      simp [adjacentComparable, pyValLe?, hrest]

/-- Elements satisfying `p` are tied under `r`: inserting keeps the `p`-part
of the list in order, with the new element (when it satisfies `p`) first —
the one-step form of stability. -/
theorem filter_orderedInsert (r : OS → OS → Prop) [DecidableRel r] (p : OS → Bool)
    (hties : ∀ x y, p x = true → p y = true → r x y) (a : OS) :
    ∀ L : List OS, (List.orderedInsert r a L).filter p =
      if p a then a :: L.filter p else L.filter p := by
  intro L
  induction L with
  | nil =>
    by_cases hpa : p a = true <;> simp [List.orderedInsert, List.filter_cons, hpa]
  | cons b t ih =>
    by_cases hr : r a b
    · by_cases hpa : p a = true <;>
        simp [List.orderedInsert, if_pos hr, List.filter_cons, hpa]
    · by_cases hpa : p a = true
      · have hpb : ¬ p b = true := fun hpb => hr (hties a b hpa hpb)
        simp [List.orderedInsert, if_neg hr, List.filter_cons, hpa, hpb, ih]
      · simp [List.orderedInsert, if_neg hr, List.filter_cons, hpa, ih]

/-- Stability of `List.insertionSort`: for any key class `p` of mutually
tied elements, the sorted list keeps exactly the original `p`-sublist. -/
theorem filter_insertionSort (r : OS → OS → Prop) [DecidableRel r] (p : OS → Bool)
    (hties : ∀ x y, p x = true → p y = true → r x y) :
    ∀ l : List OS, (List.insertionSort r l).filter p = l.filter p := by
  intro l
  induction l with
  | nil => rfl
  | cons a t ih =>
    simp only [List.insertionSort, filter_orderedInsert r p hties, ih, List.filter_cons]

/-! ## Helper lemmas: pagination -/

theorem pages_take (l : List OS) (size : Nat) :
    ∀ k, (List.range k).flatMap (fun p => (l.drop (size * p)).take size) = l.take (size * k) := by
  intro k
  induction k with
  | zero => simp
  | succ n ih =>
    rw [List.range_succ, List.flatMap_append, ih]
    simp only [List.flatMap_cons, List.flatMap_nil, List.append_nil]
    rw [Nat.mul_succ, List.take_add]

theorem ceil_mul_ge (len size : Nat) (h : 1 ≤ size) : len ≤ size * ((len + size - 1) / size) := by
  have hd := Nat.div_add_mod (len + size - 1) size
  have hm : (len + size - 1) % size < size := Nat.mod_lt _ (by omega)
  omega

/-! ## Helper lemmas: splitting and enum conversion -/

theorem pySplitComma_ne_nil (cs : List Char) : pySplitComma cs ≠ [] := by
  induction cs with
  | nil => simp [pySplitComma]
  | cons c rest ih =>
    simp only [pySplitComma]
    rcases h : pySplitComma rest with _ | ⟨t, ts⟩
    · simp
    · by_cases hc : c = ','
      · simp [hc]
      · simp [hc]

theorem mapM_option_ne_nil {α β : Type} (f : α → Option β) (l : List α) (l' : List β)
    (hl : l ≠ []) (h : l.mapM f = some l') : l' ≠ [] := by
  cases l with
  | nil => exact absurd rfl hl
  | cons a as =>
    rw [List.mapM_cons] at h
    rcases hfa : f a with _ | b
    · rw [hfa] at h; simp at h
    · rw [hfa] at h
      rcases hrest : as.mapM f with _ | bs
      · rw [hrest] at h; simp at h
      · rw [hrest] at h
        simp at h
        simp [← h]

/-! ## Helper lemmas: the deletion loop only keeps prior elements -/

theorem pyDeleteLoopF_subset :
    ∀ (fuel : Nat) (cur : List OS) (i : Nat) (r x : OS),
      x ∈ pyDeleteLoopF fuel cur i r → x ∈ cur := by
  intro fuel
  induction fuel with
  | zero => intro cur i r x h; exact h
  | succ n ih =>
    intro cur i r x h
    simp only [pyDeleteLoopF] at h
    split at h
    · split at h
      · exact (List.eraseIdx_subset cur _) (ih _ _ _ _ h)
      · exact ih _ _ _ _ h
    · exact h

/-! ## Helper lemmas: the scan loop -/

theorem walkLoop_initialized (e : ScanEnv) :
    ∀ (files : List (List String)) (s : ScanState),
      (walkLoop e files s).1.initialized = s.initialized := by
  intro files
  induction files with
  | nil => intro s; rfl
  | cons p rest ih =>
    intro s
    simp only [walkLoop]
    rcases get_os_manifest_from_path e.env e.stat p none with _ | r
    · rfl
    · rcases r with _ | r
      · exact ih s
      · exact ih _

/-! ## Helper lemmas: miscellaneous -/

theorem strIsEmpty_eq_false {s : String} (h : s ≠ "") : s.isEmpty = false := by
  cases hb : s.isEmpty
  · rfl
  · exact absurd (by simpa [String.isEmpty_iff] using hb) h

theorem sizesFromGroups_paired {df : Option (String × String)}
    {sizes : Option DisketteSize × Option FloppySize}
    (h : sizesFromGroups? df = some sizes) : sizes.1.isSome ↔ sizes.2.isSome := by
  rcases df with _ | ⟨d, f⟩
  · simp only [sizesFromGroups?, Option.some.injEq] at h
    rw [← h]
    simp
  · simp only [sizesFromGroups?] at h
    rcases hdd : DisketteSize.ofString? d with _ | dd <;>
      rcases hff : FloppySize.ofString? f with _ | ff <;>
        rw [hdd, hff] at h <;> simp at h <;> simp [← h]

/-! ## Helper lemmas: each Python facet condition is the claim's facet test -/

theorem pyCondStr_iff (allow : Option (List String)) (v : String) :
    pyCondStr allow v = true ↔ facetOk allow [v] := by
  cases allow with
  | none => simp [pyCondStr, facetOk]
  | some xs =>
    cases xs with
    | nil => simp [pyCondStr, facetOk]
    | cons x xs' => simp [pyCondStr, facetOk]

theorem pyCondDiskette_iff (allow : Option (List String)) (d : Option DisketteSize) :
    pyCondDiskette allow d = true ↔ facetOk allow (optValList (d.map DisketteSize.value)) := by
  cases allow with
  | none => simp [pyCondDiskette, facetOk]
  | some xs =>
    cases xs with
    | nil => simp [pyCondDiskette, facetOk]
    | cons x xs' =>
      cases d with
      | none => simp [pyCondDiskette, facetOk, optValList]
      | some dd => simp [pyCondDiskette, facetOk, optValList]

theorem pyCondFloppy_iff (allow : Option (List String)) (f : Option FloppySize) :
    pyCondFloppy allow f = true ↔ facetOk allow (optValList (f.map FloppySize.value)) := by
  cases allow with
  | none => simp [pyCondFloppy, facetOk]
  | some xs =>
    cases xs with
    | nil => simp [pyCondFloppy, facetOk]
    | cons x xs' =>
      cases f with
      | none => simp [pyCondFloppy, facetOk, optValList]
      | some ff => simp [pyCondFloppy, facetOk, optValList]

theorem pyCondArchOverlap_iff (allow : Option (List String)) (archList : List Arch) :
    pyCondArchOverlap allow archList = true ↔ facetOk allow (archList.map Arch.value) := by
  cases allow with
  | none => simp [pyCondArchOverlap, facetOk]
  | some xs =>
    cases xs with
    | nil => simp [pyCondArchOverlap, facetOk]
    | cons x xs' =>
      simp only [pyCondArchOverlap, facetOk, List.isEmpty_cons, Bool.false_or,
        List.any_eq_true, Option.some.injEq, List.mem_map]
      constructor
      · rintro ⟨a, ha, hv⟩ ys hys hne
        exact ⟨a.value, by simpa [← hys] using hv, a, ha, rfl⟩
      · intro h
        rcases h (x :: xs') rfl (by simp) with ⟨v, hv, a, ha, rfl⟩
        exact ⟨a, ha, by simpa using hv⟩

theorem pyCondTags_iff (allow : Option (List String)) (recTags : List String) :
    pyCondTags allow recTags = true ↔ facetOk allow recTags := by
  cases allow with
  | none => simp [pyCondTags, facetOk]
  | some xs =>
    cases xs with
    | nil => simp [pyCondTags, facetOk]
    | cons x xs' =>
      simp only [pyCondTags, facetOk, List.isEmpty_cons, Bool.false_or,
        List.any_eq_true, Option.some.injEq]
      constructor
      · rintro ⟨t, ht, hv⟩ ys hys hne
        exact ⟨t, by simpa [← hys] using ht, by simpa using hv⟩
      · intro h
        rcases h (x :: xs') rfl (by simp) with ⟨v, hv, hrec⟩
        exact ⟨v, hv, by simpa using hrec⟩

theorem pyCondSearch_iff (search : Option String) (o : OS) :
    pyCondSearch search o = true ↔
      (∀ s, search = some s → s ≠ "" →
        pyInStr (pyLower s) (pyLower o.variant) = true ∨
        pyInStr (pyLower s) (pyLower o.name) = true ∨
        pyInStr (pyLower s) (pyLower o.version) = true ∨
        (∃ d, o.disketteSize = some d ∧ pyInStr (pyLower s) (pyLower d.value) = true) ∨
        (∃ f, o.floppySize = some f ∧ pyInStr (pyLower s) (pyLower f.value) = true) ∨
        (∃ a, a ∈ o.arch ∧ pyInStr (pyLower s) (pyLower a.value) = true) ∨
        (∃ t, t ∈ o.tags ∧ pyInStr (pyLower s) (pyLower t) = true)) := by
  cases search with
  | none => simp [pyCondSearch]
  | some s =>
    by_cases hs : s = ""
    · subst hs
      simp [pyCondSearch]
      exact Or.inl (by decide)
    · have hse : s.isEmpty = false := strIsEmpty_eq_false hs
      rcases hd : o.disketteSize with _ | d <;> rcases hf : o.floppySize with _ | f <;>
        simp [pyCondSearch, pySearchHit, hse, hd, hf, List.any_eq_true, hs, or_assoc]

theorem walkLoop_storeInv (e : ScanEnv)
    (hparse : ∀ p r, get_os_manifest_from_path e.env e.stat p none = .ok (some r) → recordInv r) :
    ∀ (files : List (List String)) (s : ScanState), storeInv s.store →
      storeInv (walkLoop e files s).1.store := by
  intro files
  induction files with
  | nil => intro s hs; exact hs
  | cons p rest ih =>
    intro s hs
    simp only [walkLoop]
    rcases hp : get_os_manifest_from_path e.env e.stat p none with _ | r
    · exact hs
    · rcases r with _ | r
      · exact ih s hs
      · refine ih _ ?_
        intro x hx
        rcases List.mem_append.mp hx with hx | hx
        · exact hs x hx
        · rcases List.mem_singleton.mp hx with rfl
          exact hparse p x hp

/-! ## Claim C1 -/

/-- Claim C10: when both `ascBy` and `descBy` are supplied (non-empty), the
sort key is the `ascBy` field (`ascBy or descBy`), while the order is
descending, because `reverse=bool(descBy)` looks only at `descBy`: the sort
step equals the descending `sorted` by the `ascBy` key — including its
`TypeError` behaviour, which this equality carries over unchanged. -/
theorem c10_ascBy_key_descending (ms : List OS) (c : Criteria) (a d : String)
    (ha : a ≠ "") (hd : d ≠ "") :
    sortedFiltered ms c (some a) (some d)
      = pySortedByKey true a (get_filtered_os_manifests ms c) := by
  have hae : a.isEmpty = false := strIsEmpty_eq_false ha
  have hde : d.isEmpty = false := strIsEmpty_eq_false hd
  simp [sortedFiltered, pyOrStr, pyTruthyOptStr, hae, hde]

/-- Claim C10 witness: concrete sort with `ascBy="version"`, `descBy="name"`
uses key `version` descending. -/
theorem c10_witness :
    sortedFiltered [osAX9, osAY10] {} (some "version") (some "name")
      = pySortedByKey true "version" (get_filtered_os_manifests [osAX9, osAY10] {}) :=
  c10_ascBy_key_descending [osAX9, osAY10] {} "version" "name" (by decide) (by decide)

/-! ## Claim C4 -/

/-- Claim C4 counterexample: with `ascBy="disketteSize"` over a store mixing
a sized and an unsized record, the sort compares an enum with `None` and
raises `TypeError` for EVERY page — in particular for page 5, which is
beyond the last page of the two filtered records (`ceil(2/10) = 1 ≤ 5`), so
the claim demands an empty list and the program errors instead of returning
one. -/
theorem c4_counterexample :
    ((get_filtered_os_manifests [osD35, osAX9] {}).length + 10 - 1) / 10 ≤ 5
    ∧ get_os [osD35, osAX9] {} (some "disketteSize") none 10 5 = .error .typeError
    ∧ get_os [osD35, osAX9] {} (some "disketteSize") none 10 0 = .error .typeError := by
  refine ⟨by decide, by rfl, by rfl⟩

/-- Claim C4 (amended): whenever the sort step succeeds (always when no sort
key is given, and in particular for string-valued or unknown sort keys),
`get_os` returns exactly the slice `[size*page, size*(page+1))` of the
sorted filtered sequence; the concatenation of pages
`0 … ceil(count/size) - 1` reconstructs the whole sorted filtered sequence
(hence no duplicates and no gaps); and every page index at or beyond
`ceil(count/size)` yields `ok []`.  When the sort raises `TypeError` (an
optional-size sort key over records whose keys include a `None`), every
page raises instead. -/
theorem c4_pagination (ms : List OS) (c : Criteria) (ascBy descBy : Option String)
    (size : Nat) (l : List OS) (h1 : 1 ≤ size) (_h2 : size ≤ 100)
    (hok : sortedFiltered ms c ascBy descBy = .ok l) :
    (∀ page, get_os ms c ascBy descBy size page = .ok ((l.drop (size * page)).take size))
    ∧ (List.range ((l.length + size - 1) / size)).flatMap
        (fun p => (l.drop (size * p)).take size) = l
    ∧ (∀ page, (l.length + size - 1) / size ≤ page →
        get_os ms c ascBy descBy size page = .ok []) := by
  refine ⟨?_, ?_, ?_⟩
  · intro page
    unfold get_os
    rw [hok]
  · rw [pages_take]
    exact List.take_of_length_le (ceil_mul_ge l.length size h1)
  · intro page hp
    have hlen : l.length ≤ size * page :=
      le_trans (ceil_mul_ge l.length size h1) (Nat.mul_le_mul (le_refl size) hp)
    unfold get_os
    rw [hok]
    show Except.ok ((l.drop (size * page)).take size) = Except.ok ([] : List OS)
    rw [List.drop_eq_nil_of_le hlen, List.take_nil]

/-- Claim C4 witness: a page past the end of a two-record store is empty. -/
theorem c4_witness : get_os [osAX9, osAY10] {} none none 2 7 = .ok [] :=
  (c4_pagination [osAX9, osAY10] {} none none 2
      (get_filtered_os_manifests [osAX9, osAY10] {}) (by decide) (by decide) rfl).2.2
    7 (by decide)

/-! ## Claim C2 -/

/-- Claim C2 counterexample: sorting by `version` ascending over the
versions `"9"` and `"10"` puts `"10"` first — Python's plain string
comparison is lexicographic — while the claim's natural ordering demands
`"9"` first (`specNaturalLe "9" "10"` holds and its converse fails). -/
theorem c2_counterexample :
    get_os [osAX9, osAY10] {} (some "version") none 10 0 = .ok [osAY10, osAX9]
    ∧ osAX9.version = "9" ∧ osAY10.version = "10"
    ∧ specNaturalLe "9" "10" = true ∧ specNaturalLe "10" "9" = false := by
  refine ⟨by rfl, by decide, by decide, by decide, by decide⟩

/-- Claim C2 (amended): for a non-empty sort key among the string-valued
record fields (or an unknown key, whose `os.get` default is `""`),
`get_os`'s sorting step succeeds and is a total stable sort by the string
value of that field under the LEXICOGRAPHIC (code-point) string order —
not natural order, so `"9"` sorts after `"10"`: the key order coincides
with `pyStrLe` on the field strings, the sort returns `ok` of the stable
insertion sort, whose output is sorted, a permutation of the filtered list,
and keeps the original relative order of equal-key records (stability);
with `descBy` the same holds under the reversed key order.  (Sorting by
`size` orders numerically, and by the optional-size fields can raise
`TypeError` — see C4's counterexample — so the claim's "string value of
that field" does not extend beyond this fragment.) -/
theorem c2_lexicographic_stable_sort (ms : List OS) (c : Criteria) (k : String)
    (hk : k ≠ "") (hsk : isStrKey k = true) :
    ((∀ a b : OS, keyRel k a b ↔ pyStrLe (strFieldVal a k) (strFieldVal b k) = true)
      ∧ sortedFiltered ms c (some k) none
          = .ok (List.insertionSort (keyRel k) (get_filtered_os_manifests ms c))
      ∧ List.Sorted (keyRel k) (List.insertionSort (keyRel k) (get_filtered_os_manifests ms c))
      ∧ List.Perm (List.insertionSort (keyRel k) (get_filtered_os_manifests ms c))
          (get_filtered_os_manifests ms c)
      ∧ ∀ v, (List.insertionSort (keyRel k) (get_filtered_os_manifests ms c)).filter
            (fun o => strFieldVal o k == v)
          = (get_filtered_os_manifests ms c).filter (fun o => strFieldVal o k == v))
    ∧ ((∀ a b : OS, keyRelDesc k a b ↔ pyStrLe (strFieldVal b k) (strFieldVal a k) = true)
      ∧ sortedFiltered ms c none (some k)
          = .ok (List.insertionSort (keyRelDesc k) (get_filtered_os_manifests ms c))
      ∧ List.Sorted (keyRelDesc k)
          (List.insertionSort (keyRelDesc k) (get_filtered_os_manifests ms c))
      ∧ List.Perm (List.insertionSort (keyRelDesc k) (get_filtered_os_manifests ms c))
          (get_filtered_os_manifests ms c)
      ∧ ∀ v, (List.insertionSort (keyRelDesc k) (get_filtered_os_manifests ms c)).filter
            (fun o => strFieldVal o k == v)
          = (get_filtered_os_manifests ms c).filter (fun o => strFieldVal o k == v)) := by
  have hke : k.isEmpty = false := strIsEmpty_eq_false hk
  have hcomp : adjacentComparable
      ((get_filtered_os_manifests ms c).map (fun o => osGet o k)) = true := by
    apply adjacentComparable_str
    intro x hx
    rcases List.mem_map.mp hx with ⟨o, _, rfl⟩
    exact ⟨strFieldVal o k, osGet_str_of_isStrKey o k hsk⟩
  haveI htot : IsTotal OS (keyRel k) :=
    ⟨fun a b => by
      rw [keyRel_str_iff k hsk a b, keyRel_str_iff k hsk b a]
      exact pyStrLe_total _ _⟩
  haveI htr : IsTrans OS (keyRel k) :=
    ⟨fun a b cc hab hbc => (keyRel_str_iff k hsk a cc).mpr
      (pyStrLe_trans ((keyRel_str_iff k hsk a b).mp hab)
        ((keyRel_str_iff k hsk b cc).mp hbc))⟩
  haveI htotd : IsTotal OS (keyRelDesc k) :=
    ⟨fun a b => by
      rw [keyRelDesc_str_iff k hsk a b, keyRelDesc_str_iff k hsk b a]
      exact (pyStrLe_total _ _).symm⟩
  haveI htrd : IsTrans OS (keyRelDesc k) :=
    ⟨fun a b cc hab hbc => (keyRelDesc_str_iff k hsk a cc).mpr
      (pyStrLe_trans ((keyRelDesc_str_iff k hsk b cc).mp hbc)
        ((keyRelDesc_str_iff k hsk a b).mp hab))⟩
  constructor
  · refine ⟨keyRel_str_iff k hsk, ?_, ?_, ?_, ?_⟩
    · simp [sortedFiltered, pyOrStr, pyTruthyOptStr, hke, pySortedByKey, hcomp]
    · exact List.sorted_insertionSort _ _
    · exact List.perm_insertionSort _ _
    · intro v
      apply filter_insertionSort
      intro x y hx hy
      have hx' : strFieldVal x k = v := by simpa using hx
      have hy' : strFieldVal y k = v := by simpa using hy
      exact (keyRel_str_iff k hsk x y).mpr (by rw [hx', hy']; exact pyStrLe_refl v)
  · refine ⟨keyRelDesc_str_iff k hsk, ?_, ?_, ?_, ?_⟩
    · simp [sortedFiltered, pyOrStr, pyTruthyOptStr, hke, pySortedByKey, hcomp]
    · exact List.sorted_insertionSort _ _
    · exact List.perm_insertionSort _ _
    · intro v
      apply filter_insertionSort
      intro x y hx hy
      have hx' : strFieldVal x k = v := by simpa using hx
      have hy' : strFieldVal y k = v := by simpa using hy
      exact (keyRelDesc_str_iff k hsk x y).mpr (by rw [hx', hy']; exact pyStrLe_refl v)

/-- Claim C2 witness: the sorting properties at a concrete store and the
`version` key. -/
theorem c2_witness :
    sortedFiltered [osAX9, osAY10] {} (some "version") none
      = .ok (List.insertionSort (keyRel "version")
          (get_filtered_os_manifests [osAX9, osAY10] {})) :=
  ((c2_lexicographic_stable_sort [osAX9, osAY10] {} "version" (by decide)
      (by decide)).1).2.1

/-! ## Claim C3 -/

/-- Claim C3: a record of the store is in the filter's output iff every
facet with a non-empty allow-list overlaps it (any member in common for
architecture and tag, membership for the single-valued facets — a record
lacking an optional size fails an active size constraint), an absent or
empty allow-list imposes no constraint, and, when a search string is set,
the lowercased search string is a (case-insensitive) substring of variant,
name, version, a size code, an architecture code or a tag. -/
theorem c3_filter_membership (ms : List OS) (c : Criteria) (o : OS) (h : o ∈ ms) :
    o ∈ get_filtered_os_manifests ms c ↔ claimPasses c o := by
  unfold get_filtered_os_manifests
  rw [List.mem_filter]
  simp only [h, true_and]
  unfold manifestPasses claimPasses
  simp only [Bool.and_eq_true]
  rw [pyCondStr_iff, pyCondStr_iff, pyCondStr_iff, pyCondDiskette_iff, pyCondFloppy_iff,
    pyCondArchOverlap_iff, pyCondTags_iff, pyCondSearch_iff]
  tauto

/-- Claim C3 witness: the filter-membership equivalence at a concrete store,
record and criteria. -/
theorem c3_witness :
    osAX9 ∈ get_filtered_os_manifests [osAX9, osAY10] { variants := some ["A"] }
      ↔ claimPasses { variants := some ["A"] } osAX9 :=
  c3_filter_membership [osAX9, osAY10] { variants := some ["A"] } osAX9 (by decide)

/-! ## Claim C6 -/

/-- Claim C6 (code bug): processing a deletion event re-parses the deleted
path with `get_os_manifest_from_path`, which calls `path.stat()` on the
now-missing file; the resulting `FileNotFoundError` (an `OSError`) is not
caught (only `ValueError` is), so `on_deleted` raises instead of removing
the matching record — the store mutation never happens. -/
theorem c6_on_deleted_raises :
    FileHandler.on_deleted envFix statNone pathMSDOS [osMSDOS] = .error .osError := by
  rfl

/-! ## Claim C8 -/

theorem scanPhase_initialized (e : ScanEnv) (t : ScanState) :
    (scanPhase e t).1.initialized = t.initialized := by
  unfold scanPhase
  have hw := walkLoop_initialized e e.files t
  rcases hq : walkLoop e e.files t with ⟨s1, err⟩
  rw [hq] at hw
  rcases err with _ | err
  · exact hw
  · exact hw

/-- Claim C8: the scan is idempotent — a call on an initialized state is a
no-op returning the state unchanged; after any call the flag is set; on an
uninitialized state the whole walk runs on a state whose flag was already
set first (so a re-entrant call during the walk is also a no-op); and a
second call after any first call is a no-op, so the store is populated from
the walk at most once. -/
theorem c8_idempotent_scan (e : ScanEnv) (s : ScanState) :
    (s.initialized = true → generate_os_manifests e s = (s, none))
    ∧ (generate_os_manifests e s).1.initialized = true
    ∧ (s.initialized = false →
        generate_os_manifests e s = scanPhase e { s with initialized := true })
    ∧ generate_os_manifests e (generate_os_manifests e s).1
        = ((generate_os_manifests e s).1, none) := by
  have hre : ∀ t : ScanState, t.initialized = true → generate_os_manifests e t = (t, none) := by
    intro t ht
    unfold generate_os_manifests
    rw [if_pos ht]
  have hinit : (generate_os_manifests e s).1.initialized = true := by
    unfold generate_os_manifests
    by_cases hs : s.initialized = true
    · rw [if_pos hs]
      exact hs
    · rw [if_neg hs]
      rw [scanPhase_initialized]
  refine ⟨hre s, hinit, ?_, hre _ hinit⟩
  intro hs
  unfold generate_os_manifests
  rw [if_neg (by simp [hs])]

/-- Claim C8 witness: a re-entrant call on an already-initialized state is a
no-op. -/
theorem c8_witness :
    generate_os_manifests scanEnvFix ⟨true, [osMSDOS], true⟩
      = (⟨true, [osMSDOS], true⟩, none) :=
  (c8_idempotent_scan scanEnvFix ⟨true, [osMSDOS], true⟩).1 rfl

/-! ## Claim C5 -/

/-- Claim C5 counterexample: on a path with fewer than four components,
`path.parts[3]` raises `IndexError` before any filename matching, and the
`except ValueError` clause does not catch it — the parser raises instead of
returning a record or `None`, refuting "for every input path … never raises
or propagates an exception". -/
theorem c5_counterexample :
    get_os_manifest_from_path envFix statAll42 ["a.iso"] none = .error .indexError := by
  rfl

/-- Claim C5 (amended): for paths with at least four components, parsing a
file whose `stat` succeeds returns a record or `None` and never raises; and
every deviation from the filename grammar yields `None` without even
consulting the filesystem — a regex mismatch (which subsumes missing
required fields and malformed extensions), an out-of-vocabulary size token
(the captured pair fails the enum lookups), and an out-of-vocabulary
architecture token (some comma-separated token fails `Arch`), the latter
two through the caught `ValueError`.  Paths with fewer than four components
raise `IndexError`. -/
theorem c5_parse_totality (env : Env) (stat : Stat) (p : List String)
    (np : Option (List String)) (hlen : 4 ≤ p.length) :
    ((match np with | none => stat p | some q => stat q) ≠ none →
      ∃ r, get_os_manifest_from_path env stat p np = .ok r)
    ∧ (filenameRegexMatch (p.getLastD "") = none →
      get_os_manifest_from_path env stat p np = .ok none)
    ∧ (∀ g, filenameRegexMatch (p.getLastD "") = some g →
      sizesFromGroups? g.diskFloppy = none →
      get_os_manifest_from_path env stat p np = .ok none)
    ∧ (∀ g sizes, filenameRegexMatch (p.getLastD "") = some g →
      sizesFromGroups? g.diskFloppy = some sizes →
      (pySplitComma g.arch.data).mapM Arch.ofString? = none →
      get_os_manifest_from_path env stat p np = .ok none) := by
  have hlt : 3 < p.length := by omega
  obtain ⟨v, hv⟩ : ∃ v, p[3]? = some v := by
    rw [List.getElem?_eq_getElem hlt]
    exact ⟨_, rfl⟩
  constructor
  · intro hstat
    rcases hm : filenameRegexMatch (p.getLastD "") with _ | g
    · exact ⟨none, by unfold get_os_manifest_from_path; simp only [hv, hm]⟩
    · rcases hsz : sizesFromGroups? g.diskFloppy with _ | sizes
      · exact ⟨none, by unfold get_os_manifest_from_path; simp only [hv, hm, hsz]⟩
      · rcases ha : (pySplitComma g.arch.data).mapM Arch.ofString? with _ | archList
        · exact ⟨none, by unfold get_os_manifest_from_path; simp only [hv, hm, hsz, ha]⟩
        · rcases hst : (match np with | none => stat p | some q => stat q) with _ | sz
          · exact absurd hst hstat
          · rcases hrel : relativeToStr? env.archiveParts p with _ | rel
            · exact ⟨none, by
                unfold get_os_manifest_from_path
                simp only [hv, hm, hsz, ha, hst, hrel]⟩
            · refine ⟨some
                { variant := v
                  name := g.osName
                  version := g.version
                  disketteSize := sizes.1
                  floppySize := sizes.2
                  arch := archList
                  tags := match g.tags with | none => [] | some t => pySplitComma t.data
                  extension := g.extension
                  size := sz
                  url := env.downloadUrl ++ "/" ++ rel }, ?_⟩
              unfold get_os_manifest_from_path
              simp only [hv, hm, hsz, ha, hst, hrel]
  refine ⟨?_, ?_, ?_⟩
  · intro hm
    unfold get_os_manifest_from_path
    simp only [hv, hm]
  · intro g hm hsz
    unfold get_os_manifest_from_path
    simp only [hv, hm, hsz]
  · intro g sizes hm hsz ha
    unfold get_os_manifest_from_path
    simp only [hv, hm, hsz, ha]

/-- Claim C5 witness: a well-formed path of four-plus components with a
stat-able file parses without raising. -/
theorem c5_witness :
    ∃ r, get_os_manifest_from_path envFix statAll42 pathMSDOS none = .ok r :=
  (c5_parse_totality envFix statAll42 pathMSDOS none (by decide)).1 (by decide)

/-! ## Claim C7 -/

/-- Claim C7: every record the parser produces has a non-empty architecture
list and has `disketteSize`/`floppySize` both present or both absent; and
every store mutation — the one-shot scan, `on_created`, `on_deleted`,
`on_moved` — preserves the property that every stored record satisfies this
invariant, so it holds for every record ever inserted into the store. -/
theorem c7_record_invariants :
    (∀ (env : Env) (stat : Stat) (p : List String) (np : Option (List String)) (r : OS),
      get_os_manifest_from_path env stat p np = .ok (some r) → recordInv r)
    ∧ (∀ (e : ScanEnv) (s : ScanState), storeInv s.store →
        storeInv (generate_os_manifests e s).1.store)
    ∧ (∀ (env : Env) (stat : Stat) (p : List String) (store store' : List OS),
        storeInv store → FileHandler.on_created env stat p store = .ok store' →
        storeInv store')
    ∧ (∀ (env : Env) (stat : Stat) (p : List String) (store store' : List OS),
        storeInv store → FileHandler.on_deleted env stat p store = .ok store' →
        storeInv store')
    ∧ (∀ (env : Env) (stat : Stat) (src dest : List String) (store store' : List OS),
        storeInv store → FileHandler.on_moved env stat src dest store = .ok store' →
        storeInv store') := by
  have hparse : ∀ (env : Env) (stat : Stat) (p : List String) (np : Option (List String))
      (r : OS), get_os_manifest_from_path env stat p np = .ok (some r) → recordInv r := by
    intro env stat p np r h
    unfold get_os_manifest_from_path at h
    split at h
    · exact absurd h (by simp)
    · split at h
      · exact absurd h (by simp)
      · split at h
        · exact absurd h (by simp)
        · rename_i sizes hsz
          split at h
          · exact absurd h (by simp)
          · rename_i archList ha
            split at h
            · exact absurd h (by simp)
            · split at h
              · exact absurd h (by simp)
              · simp only [Except.ok.injEq, Option.some.injEq] at h
                subst h
                refine ⟨?_, ?_⟩
                · exact mapM_option_ne_nil _ _ _ (pySplitComma_ne_nil _) ha
                · exact sizesFromGroups_paired hsz
  have hgen : ∀ (e : ScanEnv) (s : ScanState), storeInv s.store →
      storeInv (generate_os_manifests e s).1.store := by
    intro e s hs
    unfold generate_os_manifests
    split
    · exact hs
    · unfold scanPhase
      have hw := walkLoop_storeInv e (fun p r h => hparse e.env e.stat p none r h) e.files
        { s with initialized := true } hs
      rcases hq : walkLoop e e.files { s with initialized := true } with ⟨s1, err⟩
      rw [hq] at hw
      rcases err with _ | err
      · exact hw
      · exact hw
  have hcre : ∀ (env : Env) (stat : Stat) (p : List String) (store store' : List OS),
      storeInv store → FileHandler.on_created env stat p store = .ok store' →
      storeInv store' := by
    intro env stat p store store' hs h
    unfold FileHandler.on_created at h
    split at h
    · exact absurd h (by simp)
    · simp only [Except.ok.injEq] at h
      subst h
      exact hs
    · rename_i r hr
      simp only [Except.ok.injEq] at h
      subst h
      intro x hx
      rcases List.mem_append.mp hx with hx | hx
      · exact hs x hx
      · rw [List.mem_singleton.mp hx]
        exact hparse env stat p none r hr
  have hdel : ∀ (env : Env) (stat : Stat) (p : List String) (store store' : List OS),
      storeInv store → FileHandler.on_deleted env stat p store = .ok store' →
      storeInv store' := by
    intro env stat p store store' hs h
    unfold FileHandler.on_deleted at h
    split at h
    · exact absurd h (by simp)
    · simp only [Except.ok.injEq] at h
      subst h
      exact hs
    · rename_i r hr
      simp only [Except.ok.injEq] at h
      subst h
      intro x hx
      unfold pyDeleteLoop at hx
      exact hs x (pyDeleteLoopF_subset _ _ _ _ _ hx)
  have hmov : ∀ (env : Env) (stat : Stat) (src dest : List String) (store store' : List OS),
      storeInv store → FileHandler.on_moved env stat src dest store = .ok store' →
      storeInv store' := by
    intro env stat src dest store store' hs h
    unfold FileHandler.on_moved at h
    split at h
    · exact absurd h (by simp)
    · rename_i destRes hdest
      have hs1 : storeInv (insertIfSome store destRes) := by
        rcases destRes with _ | r
        · exact hs
        · intro x hx
          rcases List.mem_append.mp hx with hx | hx
          · exact hs x hx
          · rw [List.mem_singleton.mp hx]
            exact hparse env stat dest none r hdest
      split at h
      · exact absurd h (by simp)
      · simp only [Except.ok.injEq] at h
        subst h
        exact hs1
      · rename_i r2 hr2
        simp only [Except.ok.injEq] at h
        subst h
        intro x hx
        unfold pyDeleteLoop at hx
        exact hs1 x (pyDeleteLoopF_subset _ _ _ _ _ hx)
  exact ⟨hparse, hgen, hcre, hdel, hmov⟩

/-- Claim C7 witness: the invariant at a concretely parsed record. -/
theorem c7_witness : recordInv osMSDOS :=
  (c7_record_invariants).1 envFix statAll42 pathMSDOS none osMSDOS (by rfl)

end ISOArchive
